import Mathlib

/-!
Verification of the `RecordingExtractor` core of the spikeextractors repository
(`src/spikeextractors/recordingextractor.py`) against its natural-language
specification.

The Python methods are shallowly embedded as Lean functions:

* Python integers become `ℤ` (they are unbounded, so no wrap-around is
  modelled);
* `numpy` 1D/2D arrays become `List ℤ` / `List (List ℤ)`;
* a trace backend (the abstract `get_traces` of a concrete extractor) becomes a
  sample function `ℤ → ℤ → ℤ` mapping (channel id, frame) to a sample value,
  together with a frame count, as in the TraceSource contract of the spec;
* Python exceptions become `Except PyErr` / `Option PyErr` results, with one
  `PyErr` constructor per Python exception class so that distinct failure
  kinds stay distinguishable;
* dynamically typed arguments (channel ids and property names, which the code
  checks with `isinstance`) become the small universe `PyVal` of runtime
  values;
* Python dicts become insertion-ordered association lists (`dinsert` keeps the
  position of an existing key and appends a fresh key, exactly like a Python
  dict);
* methods that mutate `self._channel_properties` or `self._epochs` become
  functions returning the updated registry next to their result;
* Python's `sorted` becomes `List.insertionSort` (a stable sort; on the
  distinct keys appearing here every stable sort agrees with Python's
  Timsort), with string comparison modelled code-point-wise as in CPython.
-/

namespace SpikeExtractors

/-! ## Python string ordering

CPython compares strings lexicographically by Unicode code point.  Lean's
built-in `String` order does not reduce in the kernel, so we model the
comparison directly on the underlying character lists. -/

/-- Lexicographic (code-point) comparison of character lists, as CPython
compares strings.  `strListLe a b = true` iff `a ≤ b` in Python. -/
def strListLe : List Char → List Char → Bool
  | [], _ => true
  | _ :: _, [] => false
  | a :: as, b :: bs =>
    if a.toNat < b.toNat then true
    else if b.toNat < a.toNat then false
    else strListLe as bs

/-- Python's `<=` on strings. -/
def pyStrLe (a b : String) : Bool := strListLe a.data b.data

/-- Python's `<=` on strings, as a decidable relation for sorting. -/
abbrev strRel (a b : String) : Prop := pyStrLe a b = true

/-! ## Dictionaries

Python dicts, as insertion-ordered association lists: writing to an existing
key keeps its position, a fresh key is appended at the end. -/

/-- Lookup in a Python-dict model. -/
def dlookup {κ α : Type} [DecidableEq κ] (d : List (κ × α)) (k : κ) : Option α :=
  match d with
  | [] => none
  | (k', v) :: rest => if k' = k then some v else dlookup rest k

/-- Write `d[k] = v` in a Python-dict model: overwrite in place, or append. -/
def dinsert {κ α : Type} [DecidableEq κ] (d : List (κ × α)) (k : κ) (v : α) : List (κ × α) :=
  match d with
  | [] => [(k, v)]
  | (k', v') :: rest => if k' = k then (k, v) :: rest else (k', v') :: dinsert rest k v

/-! ## Snippet extraction (`get_snippets`, recordingextractor.py lines 148-209)

`get_snippets(reference_frames, snippet_len, channel_ids)` resolves
`snippet_len` into a `(before, after)` pair, allocates an all-zero buffer of
width `before + after` per reference frame and channel, and for every
in-range reference frame copies the clipped trace window into the matching
sub-slice of the buffer. -/

/-- The `snippet_len` argument of `get_snippets`: a scalar, or an explicit
`(before, after)` pair. -/
inductive SnippetLen where
  | scalar (n : ℤ)
  | pair (before after : ℤ)

/-- Lines 176-181: `snippet_len_before = int((snippet_len + 1) / 2)` and
`snippet_len_after = snippet_len - snippet_len_before` for a scalar
(`int(...)` of a Python true division truncates toward zero, which is
`Int.tdiv`); an explicit pair is taken apart. -/
def resolveSnippetLen : SnippetLen → ℤ × ℤ
  | .scalar n => (Int.tdiv (n + 1) 2, n - Int.tdiv (n + 1) 2)
  | .pair before after => (before, after)

/-- The TraceSource contract's `get_traces(channel_ids, start_frame, end_frame)`
for a backend whose sample at (channel `c`, frame `f`) is `tr c f`: a
2D array of `len(channel_ids)` rows, each holding the samples of frames
`start_frame, ..., end_frame - 1`. -/
def get_traces (tr : ℤ → ℤ → ℤ) (channel_ids : List ℤ) (start_frame end_frame : ℤ) :
    List (List ℤ) :=
  channel_ids.map fun c =>
    (List.range (end_frame - start_frame).toNat).map fun (k : ℕ) => tr c (start_frame + (k : ℤ))

/-- Lines 195-204: starting from the raw window
`snippet_range = [r - before, r + after]` and the destination window
`snippet_buffer = [0, before + after]`, clip the raw window to
`[0, num_frames)`, shifting the destination window by the clipped amount on
whichever side was clipped.  Returns `(snippet_range, snippet_buffer)` after
the two clipping steps. -/
def clipRange (num_frames before after r : ℤ) : (ℤ × ℤ) × (ℤ × ℤ) :=
  let range0 := r - before
  let range1 := r + after
  let s := if range0 < 0 then 0 else range0
  let b0 := if range0 < 0 then 0 - range0 else 0
  let e := if num_frames ≤ range1 then num_frames else range1
  let b1 :=
    if num_frames ≤ range1 then (before + after) - (range1 - num_frames)
    else before + after
  ((s, e), (b0, b1))

/-- Numpy slice assignment `buf[b0:b1] = vals` (used at line 205 with
`len(vals) = b1 - b0` and `0 ≤ b0 ≤ b1 ≤ len(buf)`, which `clipRange`
guarantees). -/
def assignSlice (buf : List ℤ) (b0 b1 : ℤ) (vals : List ℤ) : List ℤ :=
  buf.take b0.toNat ++ vals ++ buf.drop b1.toNat

/-- Lines 192-208, one loop iteration: the snippet for reference frame `r` is
an all-zero `num_channels × (before + after)` chunk; if `0 <= r < num_frames`
the clipped trace window is written into columns `b0:b1` of every row. -/
def snippetChunk (tr : ℤ → ℤ → ℤ) (num_frames before after : ℤ)
    (channel_ids : List ℤ) (r : ℤ) : List (List ℤ) :=
  let total := (before + after).toNat
  if 0 ≤ r ∧ r < num_frames then
    let rb := clipRange num_frames before after r
    (get_traces tr channel_ids rb.1.1 rb.1.2).map
      (assignSlice (List.replicate total 0) rb.2.1 rb.2.2)
  else
    List.replicate channel_ids.length (List.replicate total 0)

/-- Lines 176-209: `get_snippets` of a backend with sample function `tr` and
`get_num_frames() = num_frames`.  Returns the 3D array
`[len(reference_frames) × len(channel_ids) × (before + after)]`. -/
def get_snippets (tr : ℤ → ℤ → ℤ) (num_frames : ℤ) (reference_frames : List ℤ)
    (snippet_len : SnippetLen) (channel_ids : List ℤ) : List (List (List ℤ)) :=
  reference_frames.map
    (snippetChunk tr num_frames (resolveSnippetLen snippet_len).1
      (resolveSnippetLen snippet_len).2 channel_ids)

/-- The list of `(start_frame, end_frame)` arguments `get_snippets` passes to
`get_traces` (lines 205-207): one call per reference frame inside
`[0, num_frames)`, with the window produced by `clipRange`. -/
def snippetCalls (num_frames before after : ℤ) (reference_frames : List ℤ) :
    List (ℤ × ℤ) :=
  (reference_frames.filter fun r => decide (0 ≤ r ∧ r < num_frames)).map
    fun r => (clipRange num_frames before after r).1

/-! ## Runtime values and exceptions -/

/-- A Python runtime value, as passed to the dynamically typed `channel_id` and
`property_name` parameters.  `isinstance(v, (int, np.integer))` is `v.isInt`;
`isinstance(v, str)` is `v.isStr`. -/
inductive PyVal where
  | str (s : String)
  | int (n : ℤ)
  | pynone
deriving DecidableEq

/-- Python's `str(v)`, as used when formatting error messages. -/
def PyVal.pystr : PyVal → String
  | .str s => s
  | .int n => toString n
  | .pynone => "None"

/-- Python's `isinstance(v, str)`. -/
def PyVal.isStr : PyVal → Bool
  | .str _ => true
  | _ => false

/-- The Python exception classes raised by recordingextractor.py.  Distinct
constructors are distinct failure kinds. -/
inductive PyErr where
  | typeError (msg : String)
  | valueError (msg : String)
  | runtimeError (msg : String)
  | indexError
deriving DecidableEq

/-! ## The property store (`self._channel_properties`)

State of a `RecordingExtractor`'s channel set and property registry: the
channel-id list returned by `get_channel_ids()`, and the dict-of-dicts
`self._channel_properties` (channel id → property name → value; property
values are modelled as `ℤ`, their content is never inspected). -/

/-- Channel identity plus property registry of a `RecordingExtractor`. -/
structure RecState where
  channel_ids : List ℤ
  channel_properties : List (ℤ × List (String × ℤ))
deriving DecidableEq

/-- Python's `property_name in d` for a per-channel property dict `d`: only
string keys are ever inserted, and in Python a non-string such as an `int` or
`None` never compares equal to a `str` key, so membership of a non-string is
always false. -/
def pyKeyMem (property_name : PyVal) (d : List (String × ℤ)) : Bool :=
  match property_name with
  | .str s => (dlookup d s).isSome
  | _ => false

/-- Lines 353-378, `set_channel_property(channel_id, property_name, value)`:
type-check the channel id, validate it against `get_channel_ids()`, lazily
create the channel's (possibly empty) property record, then type-check the
property name and upsert.  Returns the updated state and the raised exception,
if any. -/
def set_channel_property (st : RecState) (channel_id property_name : PyVal) (value : ℤ) :
    RecState × Option PyErr :=
  match channel_id with
  | .int c =>
    if c ∈ st.channel_ids then
      let props1 :=
        match dlookup st.channel_properties c with
        | none => dinsert st.channel_properties c []
        | some _ => st.channel_properties
      match property_name with
      | .str s =>
        ({ st with channel_properties :=
            dinsert props1 c (dinsert ((dlookup props1 c).getD []) s value) }, none)
      | _ =>
        ({ st with channel_properties := props1 },
          some (.typeError (property_name.pystr ++ " must be a string")))
    else (st, some (.valueError (channel_id.pystr ++ " is not a valid channel_id")))
  | _ => (st, some (.typeError (channel_id.pystr ++ " must be an int")))

/-- Lines 380-407, `get_channel_property(channel_id, property_name)`: the
checks run in source order — channel-id type, channel-id validity, "channel
has a property record" (`ValueError`), "name present in the record"
(`RuntimeError`), and only then the property-name type check, which is
therefore only reachable with a string name. -/
def get_channel_property (st : RecState) (channel_id property_name : PyVal) :
    Except PyErr ℤ :=
  match channel_id with
  | .int c =>
    if c ∈ st.channel_ids then
      match dlookup st.channel_properties c with
      | none => .error (.valueError ("no properties found for channel" ++ channel_id.pystr))
      | some d =>
        if pyKeyMem property_name d then
          match property_name with
          | .str s => .ok ((dlookup d s).getD 0)
          | _ => .error (.typeError (property_name.pystr ++ " must be a string"))
        else
          .error (.runtimeError
            (property_name.pystr ++ " has not been added to channel " ++ channel_id.pystr))
    else .error (.valueError (channel_id.pystr ++ " is not a valid channel_id"))
  | _ => .error (.typeError (channel_id.pystr ++ " must be an int"))

/-- Lines 409-430, `get_channel_property_names(channel_id)`: validate the
channel id, lazily create an empty property record for it, and return its
sorted key list.  The state is returned because of the lazy initialization. -/
def get_channel_property_names (st : RecState) (channel_id : PyVal) :
    RecState × Except PyErr (List String) :=
  match channel_id with
  | .int c =>
    if c ∈ st.channel_ids then
      let props1 :=
        match dlookup st.channel_properties c with
        | none => dinsert st.channel_properties c []
        | some _ => st.channel_properties
      ({ st with channel_properties := props1 },
        .ok (List.insertionSort strRel (((dlookup props1 c).getD []).map Prod.fst)))
    else (st, .error (.valueError (channel_id.pystr ++ " is not a valid channel_id")))
  | _ => (st, .error (.typeError (channel_id.pystr ++ " must be an int")))

/-- Lines 448-450, the loop of `get_shared_channel_property_names`: intersect
the running name set with each remaining channel's name set in turn (an
exception from `get_channel_property_names` propagates at once, as in
Python). -/
def sharedNamesLoop (curr : List String) (st : RecState) :
    List ℤ → RecState × Except PyErr (List String)
  | [] => (st, .ok curr)
  | c :: rest =>
    match get_channel_property_names st (.int c) with
    | (st1, .ok names) =>
        sharedNamesLoop (curr.filter fun s => decide (s ∈ names)) st1 rest
    | (st1, .error e) => (st1, .error e)

/-- Lines 432-452, `get_shared_channel_property_names(channel_ids)`: start
from the first listed channel's name set (`channel_ids[0]` raises `IndexError`
on an empty list), intersect successively with each subsequent channel's name
set, and return the sorted result.  The default `channel_ids=None` resolves to
`get_channel_ids()` at the call site; the embedding takes the resolved
list. -/
def get_shared_channel_property_names (st : RecState) (channel_ids : List ℤ) :
    RecState × Except PyErr (List String) :=
  match channel_ids with
  | [] => (st, .error .indexError)
  | c0 :: rest =>
    match get_channel_property_names st (.int c0) with
    | (st1, .ok names0) =>
      match sharedNamesLoop names0 st1 rest with
      | (st2, .ok curr) => (st2, .ok (List.insertionSort strRel curr))
      | (st2, .error e) => (st2, .error e)
    | (st1, .error e) => (st1, .error e)

/-- The property-name key set of channel `c` in state `st` (a channel with no
record has the empty key set).  Spec-level accessor used to state theorems. -/
def channelKeys (st : RecState) (c : ℤ) : List String :=
  ((dlookup st.channel_properties c).getD []).map Prod.fst

/-! ## The epoch registry (`self._epochs`) -/

/-- The `self._epochs` dict: epoch name → `{'start_frame': ..., 'end_frame': ...}`,
where `end_frame` may be Python `None`. -/
abbrev Epochs := List (String × (ℤ × Option ℤ))

/-- Modelled from the spec: `cast_start_end_frame` lives in
`extraction_tools.py`, which is not among the sources; the spec (§3, Epoch
invariant) describes it only as "basic casting" of the start and end frames.
With frames already embedded as `ℤ`, basic casting is the identity, and an
absent (`None`) end frame is preserved.  Note the call site at
recordingextractor.py line 524 passes only `(start_frame, end_frame)`, so no
implementation of this function can produce the recording's frame count. -/
def cast_start_end_frame (start_frame : ℤ) (end_frame : Option ℤ) : ℤ × Option ℤ :=
  (start_frame, end_frame)

/-- Lines 508-527, `add_epoch(epoch_name, start_frame, end_frame)`: cast the
frames and store them under the name (overwriting silently).  The name
type-check is outside the claims' scope, so the name is taken as a string. -/
def add_epoch (eps : Epochs) (epoch_name : String) (start_frame : ℤ)
    (end_frame : Option ℤ) : Epochs :=
  dinsert eps epoch_name (cast_start_end_frame start_frame end_frame)

/-- Lines 565-587, `get_epoch_info(epoch_name)`: the stored record, or a
`RuntimeError` for an unknown name. -/
def get_epoch_info (eps : Epochs) (epoch_name : String) : Except PyErr (ℤ × Option ℤ) :=
  match dlookup eps epoch_name with
  | some info => .ok info
  | none => .error (.runtimeError "This epoch has not been added")

/-- The `start_frame` that `get_epoch_names` reads through `get_epoch_info`
for a name taken from the epoch dict (the `0` default is unreachable: the
names iterated over are exactly the dict's keys). -/
def epochStartOf (eps : Epochs) (epoch_name : String) : ℤ :=
  match dlookup eps epoch_name with
  | some info => info.1
  | none => 0

/-- Python's `<` on the `(start_frame, epoch_name)` tuples that
`get_epoch_names` sorts: lexicographic, comparing names (code-point-wise) when
the start frames tie. -/
abbrev epochPairRel (a b : ℤ × String) : Prop :=
  a.1 < b.1 ∨ (a.1 = b.1 ∧ strRel a.2 b.2)

/-- Lines 545-563, `get_epoch_names()`: pair every epoch name with its start
frame, apply Python's `sorted` to the `(start_frame, name)` tuples, and
project the names back out.  (For the empty dict both the source and this
embedding return the empty list.) -/
def get_epoch_names (eps : Epochs) : List String :=
  let epoch_names := eps.map Prod.fst
  let epoch_start_frames := epoch_names.map (epochStartOf eps)
  ((epoch_start_frames.zip epoch_names).insertionSort epochPairRel).map Prod.snd

/-! ## Concrete example states used by witnesses and counterexamples -/

/-- Channels 0 and 1; channel 1 holds a `location` property, channel 0 has no
property record. -/
def exPropState : RecState := ⟨[0, 1], [(1, [("location", 5)])]⟩

/-- A single channel 0 holding only a `location` property. -/
def exLocState : RecState := ⟨[0], [(0, [("location", 1)])]⟩

/-- A single channel 0 with no property record at all. -/
def exEmptyState : RecState := ⟨[0], []⟩

/-- The spec's shared-property example: channel 0 has `{location, group}`,
channel 1 has `{location}`, channel 2 has `{location, gain}`. -/
def exSharedState : RecState :=
  ⟨[0, 1, 2],
    [(0, [("location", 10), ("group", 1)]),
     (1, [("location", 20)]),
     (2, [("location", 30), ("gain", 2)])]⟩

/-- An example epoch registry with distinct start frames and names added in
non-sorted order. -/
def exEpochs : Epochs := [("b", (1, none)), ("a", (0, some 5))]

/-! # Theorems -/

/-! ## Order properties of the Python string comparison -/

theorem strListLe_total (a b : List Char) : strListLe a b = true ∨ strListLe b a = true := by
  induction a generalizing b with
  | nil => left; rfl
  | cons x xs ih =>
    cases b with
    | nil => right; rfl
    | cons y ys =>
      by_cases hxy : x.toNat < y.toNat
      · left; simp [strListLe, hxy]
      · by_cases hyx : y.toNat < x.toNat
        · right; simp [strListLe, hyx]
        · rcases ih ys with h | h
          · left; simp [strListLe, hxy, hyx, h]
          · right; simp [strListLe, hxy, hyx, h]

theorem strListLe_trans {a b c : List Char} (hab : strListLe a b = true)
    (hbc : strListLe b c = true) : strListLe a c = true := by
  induction a generalizing b c with
  | nil => rfl
  | cons x xs ih =>
    cases b with
    | nil => simp [strListLe] at hab
    | cons y ys =>
      cases c with
      | nil => simp [strListLe] at hbc
      | cons z zs =>
        simp only [strListLe] at hab hbc ⊢
        split_ifs at hab hbc ⊢ <;> first
          | rfl
          | omega
          | (exact ih (b := ys) (c := zs) (by assumption) (by assumption))

instance : IsTotal String strRel where
  total a b := strListLe_total a.data b.data

instance : IsTrans String strRel where
  trans _ _ _ hab hbc := strListLe_trans hab hbc

instance : IsTotal (ℤ × String) epochPairRel where
  total a b := by
    rcases lt_trichotomy a.1 b.1 with h | h | h
    · left; exact Or.inl h
    · rcases strListLe_total a.2.data b.2.data with hs | hs
      · left; exact Or.inr ⟨h, hs⟩
      · right; exact Or.inr ⟨h.symm, hs⟩
    · right; exact Or.inl h

instance : IsTrans (ℤ × String) epochPairRel where
  trans a b c hab hbc := by
    rcases hab with h1 | ⟨h1, hs1⟩ <;> rcases hbc with h2 | ⟨h2, hs2⟩
    · exact Or.inl (h1.trans h2)
    · exact Or.inl (h2 ▸ h1)
    · exact Or.inl (h1 ▸ h2)
    · exact Or.inr ⟨h1.trans h2, strListLe_trans hs1 hs2⟩

/-! ## Dictionary lemmas -/

theorem dlookup_dinsert {κ α : Type} [DecidableEq κ] (d : List (κ × α)) (k : κ) (v : α) :
    dlookup (dinsert d k v) k = some v := by
  induction d with
  | nil => simp [dinsert, dlookup]
  | cons p rest ih =>
    by_cases h : p.1 = k
    · simp [dinsert, dlookup, h]
    · simpa [dinsert, dlookup, h] using ih

theorem dlookup_dinsert_ne {κ α : Type} [DecidableEq κ] (d : List (κ × α)) (k k' : κ) (v : α)
    (h : k ≠ k') : dlookup (dinsert d k v) k' = dlookup d k' := by
  induction d with
  | nil => simp [dinsert, dlookup, h]
  | cons p rest ih =>
    by_cases hp : p.1 = k
    · simp [dinsert, dlookup, hp, h]
    · by_cases hp' : p.1 = k'
      · simp [dinsert, dlookup, hp, hp', Ne.symm h]
      · simpa [dinsert, dlookup, hp, hp'] using ih

theorem dlookup_of_mem_of_nodup {κ α : Type} [DecidableEq κ] {d : List (κ × α)}
    (hnd : (d.map Prod.fst).Nodup) {p : κ × α} (hp : p ∈ d) : dlookup d p.1 = some p.2 := by
  induction d with
  | nil => cases hp
  | cons q rest ih =>
    rw [List.map_cons, List.nodup_cons] at hnd
    rcases List.mem_cons.mp hp with hp | hp
    · subst hp; simp [dlookup]
    · have hne : q.1 ≠ p.1 := by
        intro he
        exact hnd.1 (he ▸ List.mem_map_of_mem Prod.fst hp)
      simpa [dlookup, hne] using ih hnd.2 hp

/-! ## Snippet extraction -/

/-- The two clipping steps land the raw window inside `[0, num_frames)` and the
destination window inside `[0, before + after]`, with matching widths. -/
theorem clipRange_spec (num_frames before after r : ℤ) (hb : 0 ≤ before)
    (ha : 0 ≤ after) (hr0 : 0 ≤ r) (hr1 : r < num_frames) :
    0 ≤ (clipRange num_frames before after r).1.1 ∧
    (clipRange num_frames before after r).1.1 ≤ (clipRange num_frames before after r).1.2 ∧
    (clipRange num_frames before after r).1.2 ≤ num_frames ∧
    0 ≤ (clipRange num_frames before after r).2.1 ∧
    (clipRange num_frames before after r).2.1 ≤ (clipRange num_frames before after r).2.2 ∧
    (clipRange num_frames before after r).2.2 ≤ before + after ∧
    (clipRange num_frames before after r).1.2 - (clipRange num_frames before after r).1.1 =
      (clipRange num_frames before after r).2.2 - (clipRange num_frames before after r).2.1 := by
  simp only [clipRange]
  split_ifs <;> omega

/-- Claim C1: for every TraceSource (sample function plus frame count), every
channel-id list, and every reference frame `r` of `reference_frames` with
`r < 0` or `r ≥ num_frames`, the slice of the `get_snippets` output
corresponding to `r` is entirely zero: the reference is not clamped into range
and no trace data is placed in that slice. -/
theorem get_snippets_out_of_range_all_zero (tr : ℤ → ℤ → ℤ) (num_frames : ℤ)
    (reference_frames : List ℤ) (snippet_len : SnippetLen) (channel_ids : List ℤ)
    (i : ℕ) (hi : i < reference_frames.length)
    (hr : reference_frames.getD i 0 < 0 ∨ num_frames ≤ reference_frames.getD i 0) :
    (get_snippets tr num_frames reference_frames snippet_len channel_ids).getD i [] =
      List.replicate channel_ids.length
        (List.replicate
          ((resolveSnippetLen snippet_len).1 + (resolveSnippetLen snippet_len).2).toNat 0) := by
  have hi' : i < (get_snippets tr num_frames reference_frames snippet_len channel_ids).length := by
    simpa [get_snippets] using hi
  rw [List.getD_eq_getElem _ _ hi']
  rw [List.getD_eq_getElem _ _ hi] at hr
  simp only [get_snippets, List.getElem_map]
  rw [snippetChunk, if_neg]
  omega

/-- Witness for claim C1 at a concrete input: backend samples
`tr c f = 100 * c + f`, `num_frames = 4`, reference frames `[-1]`,
scalar snippet length 4, channels `[7]`. -/
theorem get_snippets_out_of_range_all_zero_witness :
    ((0 : ℕ) < ([(-1 : ℤ)] : List ℤ).length ∧
      (([(-1 : ℤ)] : List ℤ).getD 0 0 < 0 ∨ (4 : ℤ) ≤ ([(-1 : ℤ)] : List ℤ).getD 0 0)) ∧
    (get_snippets (fun c f => 100 * c + f) 4 [(-1 : ℤ)] (.scalar 4) [7]).getD 0 [] =
      List.replicate ([(7 : ℤ)] : List ℤ).length
        (List.replicate
          ((resolveSnippetLen (.scalar 4)).1 + (resolveSnippetLen (.scalar 4)).2).toNat 0) :=
  ⟨⟨by decide, by decide⟩,
    get_snippets_out_of_range_all_zero (fun c f => 100 * c + f) 4 [(-1 : ℤ)] (.scalar 4) [7] 0
      (by decide) (by decide)⟩

/-- Claim C9: every `(start_frame, end_frame)` pair that `get_snippets` passes
to the backend's `get_traces` satisfies `0 ≤ start ≤ end ≤ num_frames`, for any
non-negative `(before, after)` split and any reference-frame list, so the
backend's out-of-range failure branch is unreachable from `get_snippets`. -/
theorem snippetCalls_in_bounds (num_frames before after : ℤ)
    (reference_frames : List ℤ) (hb : 0 ≤ before) (ha : 0 ≤ after) :
    ∀ se ∈ snippetCalls num_frames before after reference_frames,
      0 ≤ se.1 ∧ se.1 ≤ se.2 ∧ se.2 ≤ num_frames := by
  intro se hse
  simp only [snippetCalls, List.mem_map] at hse
  obtain ⟨r, hr, rfl⟩ := hse
  rw [List.mem_filter] at hr
  have hcond := hr.2
  simp only [decide_eq_true_eq] at hcond
  have h := clipRange_spec num_frames before after r hb ha hcond.1 hcond.2
  exact ⟨h.1, h.2.1, h.2.2.1⟩

/-- Witness for claim C9 at a concrete input: `num_frames = 1000`,
`(before, after) = (5, 5)`, reference frames `[-5, 0, 999, 1100]`. -/
theorem snippetCalls_in_bounds_witness :
    ((0 : ℤ) ≤ 5 ∧ (0 : ℤ) ≤ 5) ∧
    ∀ se ∈ snippetCalls 1000 5 5 [-5, 0, 999, 1100],
      0 ≤ se.1 ∧ se.1 ≤ se.2 ∧ se.2 ≤ 1000 :=
  ⟨⟨by decide, by decide⟩,
    snippetCalls_in_bounds 1000 5 5 [-5, 0, 999, 1100] (by decide) (by decide)⟩

/-- Every row returned by `get_traces` holds one sample per requested frame. -/
theorem length_of_mem_get_traces {tr : ℤ → ℤ → ℤ} {channel_ids : List ℤ}
    {start_frame end_frame : ℤ} {vals : List ℤ}
    (h : vals ∈ get_traces tr channel_ids start_frame end_frame) :
    vals.length = (end_frame - start_frame).toNat := by
  simp only [get_traces, List.mem_map] at h
  obtain ⟨c, _, rfl⟩ := h
  simp

/-- Every row of a snippet chunk has width `before + after`, and the chunk has
one row per channel. -/
theorem snippetChunk_shape (tr : ℤ → ℤ → ℤ) (num_frames before after : ℤ)
    (channel_ids : List ℤ) (r : ℤ) (hb : 0 ≤ before) (ha : 0 ≤ after) :
    (snippetChunk tr num_frames before after channel_ids r).length = channel_ids.length ∧
    ∀ row ∈ snippetChunk tr num_frames before after channel_ids r,
      row.length = (before + after).toNat := by
  constructor
  · by_cases h : 0 ≤ r ∧ r < num_frames <;> simp [snippetChunk, h, get_traces]
  · intro row hrow
    by_cases h : 0 ≤ r ∧ r < num_frames
    · simp only [snippetChunk, if_pos h] at hrow
      rw [List.mem_map] at hrow
      obtain ⟨vals, hvals, rfl⟩ := hrow
      have hlen := length_of_mem_get_traces hvals
      have hspec := clipRange_spec num_frames before after r hb ha h.1 h.2
      simp only [assignSlice, List.length_append, List.length_take, List.length_drop,
        List.length_replicate]
      omega
    · simp only [snippetChunk, if_neg h] at hrow
      rw [List.mem_replicate] at hrow
      simp [hrow.2]

/-- Claim C3: for a scalar `snippet_len`, the window is split as
`before = int((snippet_len + 1) / 2)` and `after = snippet_len - before`
(the extra sample of an odd length goes to the `before` side), and the
returned array has shape
`(len(reference_frames), len(channel_ids), before + after)`. -/
theorem get_snippets_scalar_split_and_shape (tr : ℤ → ℤ → ℤ) (num_frames : ℤ)
    (reference_frames : List ℤ) (channel_ids : List ℤ) (n : ℤ) (hn : 0 ≤ n) :
    resolveSnippetLen (.scalar n) = (Int.tdiv (n + 1) 2, n - Int.tdiv (n + 1) 2) ∧
    (get_snippets tr num_frames reference_frames (.scalar n) channel_ids).length =
      reference_frames.length ∧
    ∀ chunk ∈ get_snippets tr num_frames reference_frames (.scalar n) channel_ids,
      chunk.length = channel_ids.length ∧ ∀ row ∈ chunk,
        row.length =
          ((resolveSnippetLen (.scalar n)).1 + (resolveSnippetLen (.scalar n)).2).toNat := by
  refine ⟨rfl, by simp [get_snippets], ?_⟩
  intro chunk hchunk
  simp only [get_snippets, List.mem_map] at hchunk
  obtain ⟨r, _, rfl⟩ := hchunk
  have hb : 0 ≤ (resolveSnippetLen (.scalar n)).1 := Int.tdiv_nonneg (by omega) (by norm_num)
  have ha : 0 ≤ (resolveSnippetLen (.scalar n)).2 := by
    have h2 := Int.tdiv_eq_ediv (a := n + 1) (b := 2) (by omega) (by norm_num)
    simp only [resolveSnippetLen]
    omega
  exact snippetChunk_shape tr num_frames _ _ channel_ids r hb ha

/-- Witness for claim C3 at a concrete input: scalar snippet length 5
(odd: splits as `before = 3`, `after = 2`), two reference frames, two
channels. -/
theorem get_snippets_scalar_split_and_shape_witness :
    ((0 : ℤ) ≤ 5) ∧
    (resolveSnippetLen (.scalar 5) = (Int.tdiv (5 + 1) 2, 5 - Int.tdiv (5 + 1) 2) ∧
      (get_snippets (fun c f => c + f) 100 [3, 200] (.scalar 5) [0, 1]).length =
        ([(3 : ℤ), 200] : List ℤ).length ∧
      ∀ chunk ∈ get_snippets (fun c f => c + f) 100 [3, 200] (.scalar 5) [0, 1],
        chunk.length = ([(0 : ℤ), 1] : List ℤ).length ∧ ∀ row ∈ chunk,
          row.length =
            ((resolveSnippetLen (.scalar 5)).1 + (resolveSnippetLen (.scalar 5)).2).toNat) :=
  ⟨by decide,
    get_snippets_scalar_split_and_shape (fun c f => c + f) 100 [3, 200] [0, 1] 5 (by decide)⟩

/-- Claim C2: on a source with `num_frames = 1000` and scalar
`snippet_len = 10` (so `before = 5`, `after = 5`), the snippet for reference
frame `0` has its first `before` samples zero on every channel and its
remaining samples equal to `get_traces(channel_ids, 0, after)`; the snippet
for reference frame `999` has its last `after - 1` samples zero and its first
`before + 1` samples equal to `get_traces(channel_ids, 994, 1000)`. -/
theorem get_snippets_boundary_example (tr : ℤ → ℤ → ℤ) (channel_ids : List ℤ) :
    resolveSnippetLen (.scalar 10) = (5, 5) ∧
    get_snippets tr 1000 [0, 999] (.scalar 10) channel_ids =
      [(get_traces tr channel_ids 0 5).map (fun row => List.replicate 5 0 ++ row),
       (get_traces tr channel_ids 994 1000).map (fun row => row ++ List.replicate 4 0)] := by
  refine ⟨by decide, ?_⟩
  have hclip0 : clipRange 1000 5 5 0 = ((0, 5), (5, 10)) := by decide
  have hclip999 : clipRange 1000 5 5 999 = ((994, 1000), (0, 6)) := by decide
  have h0 : snippetChunk tr 1000 5 5 channel_ids 0 =
      (get_traces tr channel_ids 0 5).map (fun row => List.replicate 5 0 ++ row) := by
    simp only [snippetChunk, if_pos (by decide : (0 : ℤ) ≤ 0 ∧ (0 : ℤ) < 1000), hclip0]
    simp [assignSlice, List.take_replicate, List.drop_replicate]
  have h999 : snippetChunk tr 1000 5 5 channel_ids 999 =
      (get_traces tr channel_ids 994 1000).map (fun row => row ++ List.replicate 4 0) := by
    simp only [snippetChunk, if_pos (by decide : (0 : ℤ) ≤ 999 ∧ (999 : ℤ) < 1000), hclip999]
    simp [assignSlice, List.take_replicate, List.drop_replicate]
  show [snippetChunk tr 1000 5 5 channel_ids 0, snippetChunk tr 1000 5 5 channel_ids 999] = _
  rw [h0, h999]

/-! ## Property store -/

/-- Claim C5: for a valid channel id, `get_channel_property` fails with the
`ValueError` "no properties found" kind when the channel has no property
record, and with the distinct `RuntimeError` "has not been added" kind when
the channel has a record that lacks the requested name; the two error values
are never equal. -/
theorem get_channel_property_distinct_failure_kinds (st : RecState) (c : ℤ)
    (hc : c ∈ st.channel_ids) (property_name : PyVal) :
    (dlookup st.channel_properties c = none →
      get_channel_property st (.int c) property_name =
        .error (.valueError ("no properties found for channel" ++ toString c))) ∧
    (∀ d, dlookup st.channel_properties c = some d → pyKeyMem property_name d = false →
      get_channel_property st (.int c) property_name =
        .error (.runtimeError
          (property_name.pystr ++ " has not been added to channel " ++ toString c))) ∧
    PyErr.valueError ("no properties found for channel" ++ toString c) ≠
      PyErr.runtimeError
        (property_name.pystr ++ " has not been added to channel " ++ toString c) := by
  refine ⟨?_, ?_, by simp⟩
  · intro h
    simp [get_channel_property, hc, h, PyVal.pystr]
  · intro d hd hmem
    simp [get_channel_property, hc, hd, hmem, PyVal.pystr]

/-- Witness for claim C5 at a concrete input: channel 0 of `exPropState` has
no property record, channel 1 has one without the name `group`. -/
theorem get_channel_property_distinct_failure_kinds_witness :
    ((0 : ℤ) ∈ exPropState.channel_ids) ∧
    ((dlookup exPropState.channel_properties 0 = none →
      get_channel_property exPropState (.int 0) (.str "group") =
        .error (.valueError ("no properties found for channel" ++ toString (0 : ℤ)))) ∧
    (∀ d, dlookup exPropState.channel_properties 0 = some d →
      pyKeyMem (.str "group") d = false →
      get_channel_property exPropState (.int 0) (.str "group") =
        .error (.runtimeError
          ((PyVal.str "group").pystr ++ " has not been added to channel " ++ toString (0 : ℤ)))) ∧
    PyErr.valueError ("no properties found for channel" ++ toString (0 : ℤ)) ≠
      PyErr.runtimeError
        ((PyVal.str "group").pystr ++ " has not been added to channel " ++ toString (0 : ℤ))) :=
  ⟨by decide, get_channel_property_distinct_failure_kinds exPropState 0 (by decide) (.str "group")⟩

/-- Claim C6 evaluated on the code: with a valid channel id and the non-string
property name `7`, `get_channel_property` raises `RuntimeError` (name present
in no record) or `ValueError` (no record), never a `TypeError` — the
`isinstance(property_name, str)` check at lines 405-406 sits after the
membership check at line 403 and is unreachable for non-string names. -/
theorem get_channel_property_nonstring_name_not_type_error :
    get_channel_property exLocState (.int 0) (.int 7) =
      .error (.runtimeError "7 has not been added to channel 0") ∧
    get_channel_property exEmptyState (.int 0) (.int 7) =
      .error (.valueError "no properties found for channel0") ∧
    (∀ msg, PyErr.runtimeError "7 has not been added to channel 0" ≠ .typeError msg) ∧
    (∀ msg, PyErr.valueError "no properties found for channel0" ≠ .typeError msg) := by
  refine ⟨rfl, rfl, ?_, ?_⟩ <;> intro msg <;> simp

/-- A failed `set_channel_property` with a valid channel id and a non-string
property name raises the `TypeError` only after the empty property record has
been created (lines 369-370 run before the name type check at lines 371-374). -/
theorem set_channel_property_nonstring_state (st : RecState) (c : ℤ) (v : ℤ)
    (property_name : PyVal) (hc : c ∈ st.channel_ids) (hns : property_name.isStr = false)
    (hnone : dlookup st.channel_properties c = none) :
    (set_channel_property st (.int c) property_name v).1 =
      { st with channel_properties := dinsert st.channel_properties c [] } ∧
    (set_channel_property st (.int c) property_name v).2 =
      some (.typeError (property_name.pystr ++ " must be a string")) := by
  cases property_name with
  | str s => simp [PyVal.isStr] at hns
  | int m => refine ⟨?_, ?_⟩ <;> simp [set_channel_property, hc, hnone]
  | pynone => refine ⟨?_, ?_⟩ <;> simp [set_channel_property, hc, hnone]

/-- Claim C10: `set_channel_property` with a valid channel id and a non-string
property name raises a `TypeError` but is not atomic — it first inserts an
empty property record for the channel, so every subsequent
`get_channel_property` on that channel fails with the `RuntimeError`
"has not been added" kind instead of the `ValueError` "no properties" kind. -/
theorem set_channel_property_nonstring_not_atomic (st : RecState) (c : ℤ) (v : ℤ)
    (property_name : PyVal) (hc : c ∈ st.channel_ids) (hns : property_name.isStr = false)
    (hnone : dlookup st.channel_properties c = none) :
    (set_channel_property st (.int c) property_name v).2 =
      some (.typeError (property_name.pystr ++ " must be a string")) ∧
    dlookup (set_channel_property st (.int c) property_name v).1.channel_properties c =
      some [] ∧
    ∀ pn : PyVal,
      get_channel_property (set_channel_property st (.int c) property_name v).1 (.int c) pn =
        .error (.runtimeError (pn.pystr ++ " has not been added to channel " ++ toString c)) := by
  obtain ⟨h1, h2⟩ := set_channel_property_nonstring_state st c v property_name hc hns hnone
  refine ⟨h2, ?_, ?_⟩
  · rw [h1]
    exact dlookup_dinsert st.channel_properties c []
  · intro pn
    rw [h1]
    cases pn <;>
      simp [get_channel_property, hc, dlookup_dinsert, pyKeyMem, dlookup, PyVal.pystr]

/-- Witness for claim C10 at a concrete input: the valid channel 3 with no
property record, the non-string name `7`, value 0. -/
theorem set_channel_property_nonstring_not_atomic_witness :
    ((3 : ℤ) ∈ (RecState.mk [3] []).channel_ids ∧
      (PyVal.int 7).isStr = false ∧
      dlookup (RecState.mk [3] []).channel_properties 3 = none) ∧
    ((set_channel_property ⟨[3], []⟩ (.int 3) (.int 7) 0).2 =
      some (.typeError ((PyVal.int 7).pystr ++ " must be a string")) ∧
    dlookup (set_channel_property ⟨[3], []⟩ (.int 3) (.int 7) 0).1.channel_properties 3 =
      some [] ∧
    ∀ pn : PyVal,
      get_channel_property (set_channel_property ⟨[3], []⟩ (.int 3) (.int 7) 0).1 (.int 3) pn =
        .error (.runtimeError (pn.pystr ++ " has not been added to channel " ++ toString (3 : ℤ)))) :=
  ⟨⟨by decide, by decide, by decide⟩,
    set_channel_property_nonstring_not_atomic ⟨[3], []⟩ 3 0 (.int 7) (by decide) (by decide)
      (by decide)⟩

/-- On a valid channel, `get_channel_property_names` returns the channel's
sorted key list and changes no key set (its lazy initialization only inserts
an empty record). -/
theorem get_channel_property_names_valid (st : RecState) (c : ℤ)
    (hc : c ∈ st.channel_ids) :
    ∃ st1, get_channel_property_names st (.int c) =
        (st1, .ok (List.insertionSort strRel (channelKeys st c))) ∧
      st1.channel_ids = st.channel_ids ∧
      ∀ c', channelKeys st1 c' = channelKeys st c' := by
  cases hl : dlookup st.channel_properties c with
  | none =>
    refine ⟨{ st with channel_properties := dinsert st.channel_properties c [] }, ?_, by simp, ?_⟩
    · simp [get_channel_property_names, hc, hl, channelKeys, dlookup_dinsert]
    · intro c'
      by_cases hcc : c = c'
      · subst hcc
        simp [channelKeys, dlookup_dinsert, hl]
      · simp [channelKeys, dlookup_dinsert_ne _ _ _ _ hcc]
  | some d =>
    refine ⟨st, ?_, rfl, fun _ => rfl⟩
    simp [get_channel_property_names, hc, hl, channelKeys]

/-- The intersection loop of `get_shared_channel_property_names` succeeds on
valid channels and keeps exactly the names of `curr` shared by every processed
channel. -/
theorem sharedNamesLoop_spec (cids : List ℤ) :
    ∀ (st : RecState) (curr : List String), (∀ c ∈ cids, c ∈ st.channel_ids) →
    ∃ st' r, sharedNamesLoop curr st cids = (st', .ok r) ∧
      (∀ s, s ∈ r ↔ s ∈ curr ∧ ∀ c ∈ cids, s ∈ channelKeys st c) := by
  induction cids with
  | nil =>
    intro st curr _
    exact ⟨st, curr, rfl, fun s => by simp⟩
  | cons c rest ih =>
    intro st curr hall
    have hc : c ∈ st.channel_ids := hall c (by simp)
    obtain ⟨st1, hpair, hids, hkeys⟩ := get_channel_property_names_valid st c hc
    have hall1 : ∀ c' ∈ rest, c' ∈ st1.channel_ids := by
      intro c' hc'
      rw [hids]
      exact hall c' (by simp [hc'])
    obtain ⟨st', r, hrun, hmem⟩ :=
      ih st1 (curr.filter fun s =>
        decide (s ∈ List.insertionSort strRel (channelKeys st c))) hall1
    refine ⟨st', r, ?_, ?_⟩
    · rw [sharedNamesLoop, hpair]
      exact hrun
    · intro s
      rw [hmem s]
      simp only [hkeys, List.mem_filter, decide_eq_true_eq,
        (List.perm_insertionSort strRel (channelKeys st c)).mem_iff, List.mem_cons]
      constructor
      · rintro ⟨⟨hs1, hs2⟩, hs3⟩
        exact ⟨hs1, fun c' hc' => hc'.elim (fun he => he ▸ hs2) (hs3 c')⟩
      · rintro ⟨hs1, hs2⟩
        exact ⟨⟨hs1, hs2 c (Or.inl rfl)⟩, fun c' hc' => hs2 c' (Or.inr hc')⟩

/-- Claim C7: on a non-empty list of valid channel ids,
`get_shared_channel_property_names` returns (sorted) exactly the property
names shared by every listed channel, computed by intersecting successively
starting from the first channel's name set; for a one-element list the result
is exactly that channel's own sorted name set. -/
theorem get_shared_channel_property_names_spec (st : RecState) (c0 : ℤ)
    (rest : List ℤ) (hall : ∀ c ∈ c0 :: rest, c ∈ st.channel_ids) :
    ∃ r, (get_shared_channel_property_names st (c0 :: rest)).2 = .ok r ∧
      (∀ s, s ∈ r ↔ ∀ c ∈ c0 :: rest, s ∈ channelKeys st c) ∧
      List.Sorted strRel r ∧
      (rest = [] → r = List.insertionSort strRel (channelKeys st c0)) := by
  have hc0 : c0 ∈ st.channel_ids := hall c0 (by simp)
  obtain ⟨st1, hpair, hids, hkeys⟩ := get_channel_property_names_valid st c0 hc0
  have hall1 : ∀ c ∈ rest, c ∈ st1.channel_ids := by
    intro c hc
    rw [hids]
    exact hall c (by simp [hc])
  obtain ⟨st2, r0, hrun, hmem⟩ :=
    sharedNamesLoop_spec rest st1 (List.insertionSort strRel (channelKeys st c0)) hall1
  refine ⟨List.insertionSort strRel r0, ?_, ?_, List.sorted_insertionSort strRel r0, ?_⟩
  · simp [get_shared_channel_property_names, hpair, hrun]
  · intro s
    rw [(List.perm_insertionSort strRel r0).mem_iff, hmem s]
    simp only [hkeys, (List.perm_insertionSort strRel (channelKeys st c0)).mem_iff,
      List.mem_cons]
    constructor
    · rintro ⟨hs1, hs2⟩
      exact fun c hc => hc.elim (fun he => he ▸ hs1) (hs2 c)
    · intro hs
      exact ⟨hs c0 (Or.inl rfl), fun c hc => hs c (Or.inr hc)⟩
  · intro hrest
    subst hrest
    simp only [sharedNamesLoop] at hrun
    have hr0 : r0 = List.insertionSort strRel (channelKeys st c0) := by
      have h := congrArg Prod.snd hrun
      simpa using h.symm
    rw [hr0]
    exact List.Sorted.insertionSort_eq (List.sorted_insertionSort strRel _)

/-- Witness for claim C7 at the spec's concrete example (`exSharedState`):
channels `{location, group}`, `{location}`, `{location, gain}` share exactly
`['location']`. -/
theorem get_shared_channel_property_names_spec_witness :
    (∀ c ∈ ((0 : ℤ) :: [1, 2]), c ∈ exSharedState.channel_ids) ∧
    (get_shared_channel_property_names exSharedState ((0 : ℤ) :: [1, 2])).2 =
      .ok ["location"] ∧
    (∃ r, (get_shared_channel_property_names exSharedState ((0 : ℤ) :: [1, 2])).2 = .ok r ∧
      (∀ s, s ∈ r ↔ ∀ c ∈ (0 : ℤ) :: [1, 2], s ∈ channelKeys exSharedState c) ∧
      List.Sorted strRel r ∧
      (([1, 2] : List ℤ) = [] →
        r = List.insertionSort strRel (channelKeys exSharedState 0))) :=
  ⟨by decide, rfl,
    get_shared_channel_property_names_spec exSharedState 0 [1, 2] (by decide)⟩

/-! ## Epoch registry -/

/-- Counterexample to claim C8: after `add_epoch("stim", 100, None)` the
stored `end_frame` reported by `get_epoch_info` is `None`, not the frame
count of the recording (1000 in the spec's example scenario). -/
theorem add_epoch_none_end_not_frame_count :
    get_epoch_info (add_epoch [] "stim" 100 none) "stim" = .ok (100, none) ∧
    (Except.ok ((100 : ℤ), (none : Option ℤ)) : Except PyErr (ℤ × Option ℤ)) ≠
      .ok (100, some 1000) := by
  refine ⟨rfl, by simp⟩

/-- Claim C8 as amended: `add_epoch(name, start_frame, None)` stores the end
frame as `None` — unresolved — so `get_epoch_info` afterwards reports `None`
rather than the recording's frame count; `None` is given its "to end of
recording" meaning only when the epoch is later materialized as a view. -/
theorem add_epoch_none_end_stored_unresolved (eps : Epochs) (epoch_name : String)
    (start_frame : ℤ) :
    get_epoch_info (add_epoch eps epoch_name start_frame none) epoch_name =
      .ok (start_frame, none) := by
  unfold get_epoch_info add_epoch cast_start_end_frame
  rw [dlookup_dinsert]

/-- Counterexample to claim C4: two epochs with equal start frames added in
the order `"b"` then `"a"` come back from `get_epoch_names` as
`["a", "b"]` — name order, not the insertion order `["b", "a"]` that a stable
sort on `start_frame` alone would keep. -/
theorem get_epoch_names_tie_broken_by_name :
    get_epoch_names (add_epoch (add_epoch [] "b" 0 (some 10)) "a" 0 (some 10)) = ["a", "b"] ∧
    (["a", "b"] : List String) ≠ ["b", "a"] := by
  refine ⟨rfl, by decide⟩

/-- Claim C4 as amended: `get_epoch_names` returns the epoch names as a
permutation of the stored names ordered by ascending `start_frame`, with ties
broken by ascending name (Python sorts the `(start_frame, name)` tuples
lexicographically), not by insertion order. -/
theorem get_epoch_names_sorted_by_start_then_name (eps : Epochs)
    (hnd : (eps.map Prod.fst).Nodup) :
    (get_epoch_names eps).Perm (eps.map Prod.fst) ∧
    (get_epoch_names eps).Pairwise (fun n1 n2 =>
      ∀ i1 i2, dlookup eps n1 = some i1 → dlookup eps n2 = some i2 →
        i1.1 < i2.1 ∨ (i1.1 = i2.1 ∧ strRel n1 n2)) := by
  have hzip : ((eps.map Prod.fst).map (epochStartOf eps)).zip (eps.map Prod.fst) =
      eps.map fun p => (p.2.1, p.1) := by
    rw [List.map_map, List.zip_map']
    refine List.map_congr_left ?_
    intro p hp
    have hl := dlookup_of_mem_of_nodup hnd hp
    simp [Function.comp, epochStartOf, hl]
  have hout : get_epoch_names eps =
      ((eps.map fun p => (p.2.1, p.1)).insertionSort epochPairRel).map Prod.snd := by
    simp only [get_epoch_names]
    rw [hzip]
  constructor
  · rw [hout]
    have h1 := (List.perm_insertionSort epochPairRel (eps.map fun p => (p.2.1, p.1))).map Prod.snd
    rw [List.map_map] at h1
    exact h1
  · rw [hout, List.pairwise_map]
    have hsorted := List.sorted_insertionSort epochPairRel (eps.map fun p => (p.2.1, p.1))
    refine List.Pairwise.imp_of_mem ?_ hsorted
    intro a b ha hb hab
    have ha' : a ∈ eps.map fun p => (p.2.1, p.1) :=
      (List.perm_insertionSort epochPairRel _).subset ha
    have hb' : b ∈ eps.map fun p => (p.2.1, p.1) :=
      (List.perm_insertionSort epochPairRel _).subset hb
    obtain ⟨x, hx, rfl⟩ := List.mem_map.mp ha'
    obtain ⟨y, hy, rfl⟩ := List.mem_map.mp hb'
    intro i1 i2 h1 h2
    rw [dlookup_of_mem_of_nodup hnd hx] at h1
    rw [dlookup_of_mem_of_nodup hnd hy] at h2
    obtain rfl : x.2 = i1 := Option.some.inj h1
    obtain rfl : y.2 = i2 := Option.some.inj h2
    exact hab

/-- Witness for the amended claim C4 at `exEpochs` (names added out of start
order). -/
theorem get_epoch_names_sorted_by_start_then_name_witness :
    ((exEpochs.map Prod.fst).Nodup) ∧
    ((get_epoch_names exEpochs).Perm (exEpochs.map Prod.fst) ∧
      (get_epoch_names exEpochs).Pairwise (fun n1 n2 =>
        ∀ i1 i2, dlookup exEpochs n1 = some i1 → dlookup exEpochs n2 = some i2 →
          i1.1 < i2.1 ∨ (i1.1 = i2.1 ∧ strRel n1 n2))) :=
  ⟨by decide, get_epoch_names_sorted_by_start_then_name exEpochs (by decide)⟩

end SpikeExtractors
